import Mathlib

/-!
Verification of the deepeval-wrapper job lifecycle and evaluation API.

This file gives a shallow embedding of the job runner, the dataset
endpoint, the cancel endpoint and the authentication dependency of the
repository (src/app/api/evaluation.py, src/app/api/jobs.py,
src/app/auth.py), together with a model of the JobStore operations.
The JobStore itself (services/job_service.py), the evaluation service
(services/deepeval_service.py) and the pydantic models are not part of
the provided sources; where a definition stands in for one of them it is
marked `Modelled from the spec:` and follows the specification text.

The runners are embedded as pure functions from their inputs (request,
external evaluator outcome, external parser outcome) to the ordered list
of JobStore operations and evaluator calls they perform; a separate
interpreter applies such a trace to a Job record, implementing the
"no-op once terminal" guard the specification gives for every store
mutation.
-/

/-- Job lifecycle states (spec section 3: `pending | running | completed |
failed | cancelled`). -/
inductive JobStatus
  | pending
  | running
  | completed
  | failed
  | cancelled
  deriving DecidableEq, Repr

/-- Terminal states per the spec glossary: `completed`, `failed`, `cancelled`. -/
def JobStatus.isTerminal : JobStatus → Bool
  | .completed => true
  | .failed => true
  | .cancelled => true
  | _ => false

/-- A single test case, after the fields of `LLMTestCaseRequest` as they are
built in `_parse_dataset_file` (evaluation.py lines 333-339). -/
structure TestCase where
  input : String
  actualOutput : String
  expectedOutput : Option String := none
  retrievalContext : Option String := none
  context : Option String := none
  deriving DecidableEq, Repr

/-- Outcome of evaluating one test case; the Evaluator contract of spec
section 4.3 (`overallSuccess`, execution time).  Per-metric diagnostics are
irrelevant to every claim and omitted; time is modelled as a natural. -/
structure EvalResult where
  overallSuccess : Bool
  executionTime : Nat
  deriving DecidableEq, Repr

/-- Aggregate statistics attached to a completed job (spec sections 3
and 4.2). -/
structure EvaluationSummary where
  totalTestCases : Nat
  successfulTestCases : Nat
  failedTestCases : Nat
  successRate : ℚ
  totalExecutionTime : Nat
  deriving DecidableEq, Repr

/-- Job progress record: `{completed, total, message}` (spec section 3). -/
structure Progress where
  completed : Nat
  total : Nat
  message : String
  deriving DecidableEq, Repr

/-- The mutable fields of a Job that the claims are about.  `id`, `name`,
`tags`, timestamps and the free-form metadata play no role in any claim and
are omitted. -/
structure Job where
  status : JobStatus
  progress : Progress
  results : Option (List EvalResult)
  summary : Option EvaluationSummary
  error : Option String
  deriving DecidableEq, Repr

/-- Modelled from the spec: a Job as `JobService.create_job` makes it
(job_service.py is not under src/): status `pending`, progress `{0,0,""}`,
no results, summary or error (spec section 4.1, `create`). -/
def pendingJob : Job :=
  { status := .pending
    progress := { completed := 0, total := 0, message := "" }
    results := none
    summary := none
    error := none }

/-- Modelled from the spec: `JobService.update_job_status` — stamps the new
status, a no-op if the Job is already terminal (spec section 4.1). -/
def updateJobStatus (j : Job) (s : JobStatus) : Job :=
  if j.status.isTerminal then j else { j with status := s }

/-- Modelled from the spec: `JobService.update_job_progress` — writes the
progress triple, a no-op if the Job is already terminal (spec section 4.1). -/
def updateJobProgress (j : Job) (completed total : Nat) (message : String) : Job :=
  if j.status.isTerminal then j
  else { j with progress := { completed := completed, total := total, message := message } }

/-- Modelled from the spec: `JobService.complete_job` — transition to
`completed` attaching results and summary, a no-op if already terminal
(spec section 4.1). -/
def completeJob (j : Job) (results : List EvalResult) (summary : EvaluationSummary) : Job :=
  if j.status.isTerminal then j
  else { j with status := .completed, results := some results, summary := some summary }

/-- Modelled from the spec: `JobService.fail_job` — transition to `failed`
recording the error message, a no-op if already terminal (spec section 4.1). -/
def failJob (j : Job) (message : String) : Job :=
  if j.status.isTerminal then j
  else { j with status := .failed, error := some message }

/-- Modelled from the spec: `JobService.cancel_job` — transitions to
`cancelled` only from `pending` or `running`; reports failure otherwise,
including when the job id is unknown (spec section 4.1, `cancel`). -/
def cancelJobService (j : Option Job) : Option Job × Bool :=
  match j with
  | none => (none, false)
  | some job =>
    if job.status = .pending ∨ job.status = .running then
      (some { job with status := .cancelled }, true)
    else
      (some job, false)

/-- One observable action of a background runner: a JobStore mutation or a
call into the external evaluator (the `evalCall` records the batch of test
cases handed to the Evaluator). -/
inductive StoreOp
  | setStatus (s : JobStatus)
  | setProgress (completed total : Nat) (message : String)
  | evalCall (batch : List TestCase)
  | complete (results : List EvalResult) (summary : EvaluationSummary)
  | fail (message : String)
  deriving DecidableEq, Repr

/-- Whether an operation is a call into the external evaluator. -/
def isEvalCall : StoreOp → Bool
  | .evalCall _ => true
  | _ => false

/-- Whether an operation is a `complete` transition. -/
def isCompleteOp : StoreOp → Bool
  | .complete _ _ => true
  | _ => false

/-- Whether an operation is a `fail` transition. -/
def isFailOp : StoreOp → Bool
  | .fail _ => true
  | _ => false

/-- Apply one runner action to a Job through the JobStore (evaluator calls
do not touch the store). -/
def applyOp (j : Job) : StoreOp → Job
  | .setStatus s => updateJobStatus j s
  | .setProgress c t m => updateJobProgress j c t m
  | .evalCall _ => j
  | .complete rs sm => completeJob j rs sm
  | .fail m => failJob j m

/-- Apply a whole trace of runner actions to a Job, in order. -/
def applyOps (j : Job) (ops : List StoreOp) : Job :=
  ops.foldl applyOp j

/-- The progress pairs `(completed, total)` written by a trace, in order. -/
def progUpdates (ops : List StoreOp) : List (Nat × Nat) :=
  ops.filterMap fun op =>
    match op with
    | .setProgress c t _ => some (c, t)
    | _ => none

/-- Embeds Python's `x or default` on an optional integer: both `None` and
`0` are falsy and select the default. -/
def orDefault (x : Option Nat) (d : Nat) : Nat :=
  match x with
  | none => d
  | some c => if c = 0 then d else c

/-- Embeds `batch_size = min(request.max_concurrent or 10, 10)`
(evaluation.py line 213). -/
def batchSize (maxConcurrent : Option Nat) : Nat :=
  min (orDefault maxConcurrent 10) 10

/-- Embeds Python's `range(0, n, b)` for a positive step `b`:
the chunk start offsets `0, b, 2b, ...` below `n` (evaluation.py line 216). -/
def chunkStarts (n b : Nat) : List Nat :=
  (List.range ((n + b - 1) / b)).map fun k => k * b

/-- Whether an external call succeeded. -/
def exOk {ε α : Type} : Except ε α → Bool
  | .ok _ => true
  | .error _ => false

/-- Modelled from the spec: `DeepEvalService._calculate_summary`
(deepeval_service.py is not under src/): counts, success rate
(`successful/total`, `0` when `total = 0`) and summed execution time
(spec section 4.2). -/
def calculateSummary (rs : List EvalResult) (extraTime : Nat) : EvaluationSummary :=
  let total := rs.length
  let succ := (rs.filter fun r => r.overallSuccess).length
  { totalTestCases := total
    successfulTestCases := succ
    failedTestCases := total - succ
    successRate := if total = 0 then 0 else (succ : ℚ) / (total : ℚ)
    totalExecutionTime := rs.foldl (fun a r => a + r.executionTime) 0 + extraTime }

/-- The body of `EvaluationRequest` as the single runner consumes it. -/
structure EvaluationRequest where
  testCase : TestCase
  metrics : List String
  deriving DecidableEq, Repr

/-- The body of `BulkEvaluationRequest` as the bulk runner consumes it. -/
structure BulkEvaluationRequest where
  testCases : List TestCase
  metrics : List String
  maxConcurrent : Option Nat
  deriving DecidableEq, Repr

/-- The metadata part of `DatasetEvaluationRequest` as the dataset runner
and parser consume it (the column mapping only renames fields inside the
external decode step and is absorbed there). -/
structure DatasetEvaluationRequest where
  datasetName : String
  metrics : List String
  maxConcurrent : Option Nat
  fileFormat : String
  deriving DecidableEq, Repr

/-- An uploaded file as the dataset endpoint sees it: a name and a size. -/
structure DatasetUpload where
  filename : String
  size : Nat
  deriving DecidableEq, Repr

/-- The type of the external bulk evaluator
(`deepeval_service.evaluate_bulk`): test cases, metric names and a
concurrency bound to either an infrastructure error or results plus a
summary. -/
abbrev BulkEvaluator :=
  List TestCase → List String → Nat → Except String (List EvalResult × EvaluationSummary)

/-- The type of the external single evaluator
(`deepeval_service.evaluate_single`). -/
abbrev SingleEvaluator :=
  TestCase → List String → Except String EvalResult

/-- Embeds the chunk loop of `_run_async_bulk_evaluation`
(evaluation.py lines 216-238): for each chunk start `i`, slice the batch,
call the evaluator, and on success write the progress update
`min(i + batch_size, total)`; on an evaluator error the exception
propagates out of the loop to the handler, which calls `fail` with the
error's message; after the last chunk, complete with the accumulated
results and the computed summary. -/
def bulkLoop (ev : BulkEvaluator) (tcs : List TestCase) (mets : List String) (b : Nat) :
    List Nat → List EvalResult → List StoreOp
  | [], acc => [StoreOp.complete acc (calculateSummary acc 0)]
  | i :: rest, acc =>
    let batch := (tcs.drop i).take b
    StoreOp.evalCall batch ::
      match ev batch mets b with
      | .error e => [StoreOp.fail e]
      | .ok out =>
        StoreOp.setProgress (min (i + b) tcs.length) tcs.length
            ("Processed " ++ toString (min (i + b) tcs.length) ++ "/" ++
              toString tcs.length ++ " test cases") ::
          bulkLoop ev tcs mets b rest (acc ++ out.1)

/-- Embeds `_run_async_bulk_evaluation` (evaluation.py lines 205-241) as
the trace of store writes and evaluator calls it performs: mark running,
reset progress to `(0, N)`, then run the chunk loop.  The function receives
only the job id in the source and never reads the Job back, so the trace
does not depend on the store's state. -/
def runAsyncBulkEvaluation (ev : BulkEvaluator) (req : BulkEvaluationRequest) : List StoreOp :=
  let n := req.testCases.length
  let b := batchSize req.maxConcurrent
  StoreOp.setStatus .running ::
    StoreOp.setProgress 0 n "Starting bulk evaluation..." ::
    bulkLoop ev req.testCases req.metrics b (chunkStarts n b) []

/-- Embeds `_run_async_single_evaluation` (evaluation.py lines 176-202):
mark running, progress `(0,1)`, evaluate the one test case; on success
progress `(1,1)` and complete with the hand-built one-case summary; on an
evaluator error, fail with the error's message. -/
def runAsyncSingleEvaluation (ev : SingleEvaluator) (req : EvaluationRequest) : List StoreOp :=
  StoreOp.setStatus .running ::
    StoreOp.setProgress 0 1 "Starting evaluation..." ::
    StoreOp.evalCall [req.testCase] ::
    match ev req.testCase req.metrics with
    | .error e => [StoreOp.fail e]
    | .ok r =>
      [StoreOp.setProgress 1 1 "Evaluation completed",
        StoreOp.complete [r]
          { totalTestCases := 1
            successfulTestCases := if r.overallSuccess then 1 else 0
            failedTestCases := if r.overallSuccess then 0 else 1
            successRate := if r.overallSuccess then 1 else 0
            totalExecutionTime := r.executionTime }]

/-- Embeds `_run_async_dataset_evaluation` (evaluation.py lines 244-279):
mark running, progress `(0,100)`, parse the uploaded file (a parse error
propagates to the handler, which fails the job with the parser's message),
then progress `(10,100)`, one bulk evaluator call over all parsed cases
with concurrency `request.max_concurrent or default`, progress `(90,100)`
and complete with the evaluator's results and summary. -/
def runAsyncDatasetEvaluation (parsed : Except String (List TestCase))
    (ev : BulkEvaluator) (req : DatasetEvaluationRequest)
    (defaultMaxConcurrent : Nat) : List StoreOp :=
  StoreOp.setStatus .running ::
    StoreOp.setProgress 0 100 "Processing dataset file..." ::
    match parsed with
    | .error e => [StoreOp.fail e]
    | .ok tcs =>
      StoreOp.setProgress 10 100
          ("Parsed " ++ toString tcs.length ++ " test cases. Starting evaluation...") ::
        StoreOp.evalCall tcs ::
        match ev tcs req.metrics (orDefault req.maxConcurrent defaultMaxConcurrent) with
        | .error e => [StoreOp.fail e]
        | .ok out => [StoreOp.setProgress 90 100 "Finalizing results...",
            StoreOp.complete out.1 out.2]

/-- Embeds Python's `str.endswith(suffix)`, character by character. -/
def strEndsWith (s suffix : String) : Bool :=
  suffix.data.isSuffixOf s.data

/-- Embeds the format-detection step of `_parse_dataset_file`
(evaluation.py lines 288-296): explicit formats pass through; `auto` is
resolved from the filename extension, `.csv` to `csv` and `.json`/`.jsonl`
to `json`, and anything else raises. -/
def detectFormat (fileFormat filename : String) : Except String String :=
  if fileFormat = "auto" then
    if strEndsWith filename ".csv" then .ok "csv"
    else if strEndsWith filename ".json" || strEndsWith filename ".jsonl" then .ok "json"
    else .error "Could not determine file format. Please specify file_format."
  else .ok fileFormat

/-- Embeds `_parse_dataset_file` (evaluation.py lines 282-342): detect the
format, then decode.  The actual CSV/JSON decoding and the row-to-test-case
mapping (lines 299-342, delegated to pandas/json plus a total field
mapping) are external and abstracted as the two decode outcomes; a format
that is neither `csv` nor `json` after detection raises `Unsupported file
format`. -/
def parseDatasetFile (fileFormat filename : String)
    (decodeCsv decodeJson : Except String (List TestCase)) :
    Except String (List TestCase) :=
  match detectFormat fileFormat filename with
  | .error e => .error e
  | .ok fmt =>
    if fmt = "csv" then decodeCsv
    else if fmt = "json" then decodeJson
    else .error ("Unsupported file format: " ++ fmt)

/-- Embeds the request-path part of `evaluate_dataset`
(evaluation.py lines 133-173): reject with HTTP 413 when
`file.size > settings.max_file_size`, leaving the store untouched;
otherwise create the Job (status `pending`) and return 200.  Job creation
precedes any reading or parsing of the file, which happens in the
background task. -/
def evaluateDataset (maxFileSize : Nat) (u : DatasetUpload) (store : List Job) :
    Nat × List Job :=
  if u.size > maxFileSize then (413, store)
  else (200, store ++ [pendingJob])

/-- The dataset request end to end: the endpoint's size check, then — when
accepted — the background task applied to the freshly created pending Job,
with the parse outcome given by `parseDatasetFile` on the request's format
and the upload's filename.  Returns the HTTP status and the job (if one was
created) after the background task ran. -/
def datasetRequestRun (maxFileSize defaultMaxConcurrent : Nat) (u : DatasetUpload)
    (req : DatasetEvaluationRequest) (decodeCsv decodeJson : Except String (List TestCase))
    (ev : BulkEvaluator) : Nat × Option Job :=
  if u.size > maxFileSize then (413, none)
  else
    (200, some (applyOps pendingJob
      (runAsyncDatasetEvaluation
        (parseDatasetFile req.fileFormat u.filename decodeCsv decodeJson)
        ev req defaultMaxConcurrent)))

/-- Embeds `cancel_job` (jobs.py lines 43-56): call the service's cancel;
on failure respond HTTP 400, on success HTTP 200.  The function is applied
to the store's record for the path's job id (`none` when absent). -/
def cancelJobEndpoint (j : Option Job) : Nat × Option Job :=
  let r := cancelJobService j
  if r.2 then (200, r.1) else (400, r.1)

/-- A user identity as the auth dependencies resolve it. -/
structure User where
  username : String
  scopes : List String
  deriving DecidableEq, Repr

/-- Embeds `get_current_user_from_token` (auth.py lines 13-23): no bearer
credentials yield no user; otherwise the external Authenticator's verdict
(`verify`, standing for `verify_token` plus `get_user_by_token`, whose
rejection is caught and turned into `none`). -/
def getCurrentUserFromToken (verify : String → Option User)
    (credentials : Option String) : Option User :=
  credentials.bind verify

/-- Embeds Python's `str.lower()` on a header name, character by
character. -/
def lowerString (s : String) : String :=
  ⟨s.data.map Char.toLower⟩

/-- Embeds `get_current_user_from_api_key` (auth.py lines 26-41): scan the
request headers for the first whose lowercased name is `x-api-key`; a
missing header or an empty value yields no user; otherwise the external
`validate_api_key` verdict decides, with `get_api_user`'s identity on
success. -/
def getCurrentUserFromApiKey (validateKey : String → Bool) (apiUser : User)
    (headers : List (String × String)) : Option User :=
  match headers.find? fun h => lowerString h.1 = "x-api-key" with
  | none => none
  | some h =>
    if h.2 = "" then none
    else if validateKey h.2 then some apiUser else none

/-- Embeds `get_current_user` (auth.py lines 44-62):
`user_from_token or user_from_api_key`, and HTTP 401 when both are absent. -/
def getCurrentUser (verify : String → Option User) (validateKey : String → Bool)
    (apiUser : User) (credentials : Option String)
    (headers : List (String × String)) : Except Nat User :=
  match (getCurrentUserFromToken verify credentials).or
      (getCurrentUserFromApiKey validateKey apiUser headers) with
  | some u => .ok u
  | none => .error 401

/-- A distinct concrete test case per index, for concrete runs. -/
def tcN (n : Nat) : TestCase :=
  { input := toString n, actualOutput := "out" }

/-- A concrete successful evaluation result. -/
def r0 : EvalResult :=
  { overallSuccess := true, executionTime := 1 }

/-- A concrete summary value for evaluator stubs. -/
def sum0 : EvaluationSummary :=
  { totalTestCases := 0, successfulTestCases := 0, failedTestCases := 0
    successRate := 0, totalExecutionTime := 0 }

/-- A bulk evaluator that succeeds on every batch. -/
def evOk : BulkEvaluator :=
  fun batch _ _ => .ok (batch.map fun _ => r0, sum0)

/-- A bulk evaluator that raises exactly on the batch `[tcN 1]` (the second
chunk of `req3` below) and succeeds elsewhere. -/
def evErr2 : BulkEvaluator :=
  fun batch _ _ =>
    if batch = [tcN 1] then .error "boom"
    else .ok (batch.map fun _ => r0, sum0)

/-- A concrete bulk request: two test cases, concurrency 1 (batch size 1,
hence two chunks). -/
def req2 : BulkEvaluationRequest :=
  { testCases := [tcN 0, tcN 1], metrics := [], maxConcurrent := some 1 }

/-- A concrete bulk request: three test cases, concurrency 1 (three
chunks). -/
def req3 : BulkEvaluationRequest :=
  { testCases := [tcN 0, tcN 1, tcN 2], metrics := [], maxConcurrent := some 1 }

/-- A concrete bulk request: 25 test cases, concurrency 10. -/
def req25 : BulkEvaluationRequest :=
  { testCases := List.replicate 25 (tcN 0), metrics := [], maxConcurrent := some 10 }

/-- A Job that has already been cancelled. -/
def cancelledJob : Job :=
  { pendingJob with status := .cancelled }

/-- A concrete upload whose extension is none of `.csv`, `.json`, `.jsonl`. -/
def txtUpload : DatasetUpload :=
  { filename := "data.txt", size := 10 }

/-- A concrete dataset request leaving the file format to auto-detection. -/
def datasetReqAuto : DatasetEvaluationRequest :=
  { datasetName := "d", metrics := [], maxConcurrent := none, fileFormat := "auto" }

/-- A decode stub for the external CSV/JSON decoding. -/
def decodeStub : Except String (List TestCase) := .ok []

/-- Well-formedness of a sequence of progress pairs against a fixed total
`n`: `completed` is non-decreasing, never exceeds `total`, and `total`
always equals `n`. -/
def progressOK (n : Nat) (l : List (Nat × Nat)) : Prop :=
  l.Pairwise (fun p q => p.1 ≤ q.1) ∧ ∀ p ∈ l, p.1 ≤ p.2 ∧ p.2 = n

/-! ## General lemmas about the store interpreter -/

/-- A terminal Job absorbs every single store operation. -/
theorem applyOp_terminal {j : Job} (h : j.status.isTerminal = true) (op : StoreOp) :
    applyOp j op = j := by
  cases op <;>
    simp [applyOp, updateJobStatus, updateJobProgress, completeJob, failJob, h]

/-- A terminal Job absorbs every trace of store operations (the
"already terminal" guard of spec section 4.1). -/
theorem applyOps_terminal {j : Job} (h : j.status.isTerminal = true) (ops : List StoreOp) :
    applyOps j ops = j := by
  induction ops with
  | nil => rfl
  | cons op rest ih =>
    show applyOps (applyOp j op) rest = j
    rw [applyOp_terminal h, ih]

/-- Unfolding of `applyOps` over a cons. -/
theorem applyOps_cons (j : Job) (op : StoreOp) (ops : List StoreOp) :
    applyOps j (op :: ops) = applyOps (applyOp j op) ops := rfl

/-- The effective batch size is always positive. -/
theorem batchSize_pos (c : Option Nat) : 1 ≤ batchSize c := by
  cases c with
  | none => simp [batchSize, orDefault]
  | some k =>
    simp only [batchSize, orDefault]
    split <;> omega

/-! ## Claim C6 — file-size validation precedes Job creation -/

/-- Claim C6: a dataset upload whose size exceeds the configured maximum is
rejected with HTTP 413 and the store is left unchanged (no orphan Job);
an upload at or below the maximum proceeds to Job creation, appending a
fresh pending Job to the store. -/
theorem C6_file_size_check (maxFileSize : Nat) (u : DatasetUpload) (store : List Job) :
    (maxFileSize < u.size → evaluateDataset maxFileSize u store = (413, store)) ∧
    (u.size ≤ maxFileSize →
      evaluateDataset maxFileSize u store = (200, store ++ [pendingJob])) := by
  constructor
  · intro h
    simp [evaluateDataset, h]
  · intro h
    simp [evaluateDataset, Nat.not_lt.mpr h]

/-- Witness for C6 at concrete inputs: an oversized upload (size 11 against
maximum 10) is rejected 413 with the store unchanged, and a small upload
(size 10 against maximum 10) creates the Job. -/
theorem C6_file_size_check_witness :
    (evaluateDataset 10 { filename := "a.csv", size := 11 } [] = (413, []) ∧
      evaluateDataset 10 { filename := "a.csv", size := 10 } [] = (200, [pendingJob])) :=
  ⟨(C6_file_size_check 10 { filename := "a.csv", size := 11 } []).1 (by decide),
    (C6_file_size_check 10 { filename := "a.csv", size := 10 } []).2 (by decide)⟩

/-! ## Claim C7 — effective batch size -/

/-- Claim C7: for a requested concurrency `c ≥ 1` the runner's batch size is
`min c 10`, and with no concurrency requested it is 10.  (The valid range of
`max_concurrent` is spec-modelled as positive, the request model not being
under src/; the code's Python `or` sends a literal 0 to the default 10 as
well.) -/
theorem C7_batch_size (c : Nat) :
    (1 ≤ c → batchSize (some c) = min c 10) ∧ batchSize none = 10 := by
  constructor
  · intro h
    simp only [batchSize, orDefault]
    rw [if_neg (by omega)]
  · rfl

/-- Witness for C7 at `c = 3`: the batch size is `min 3 10 = 3`. -/
theorem C7_batch_size_witness : batchSize (some 3) = min 3 10 :=
  (C7_batch_size 3).1 (by decide)

/-! ## Claim C9 — cancellation endpoint -/

/-- Claim C9: cancelling a job that is absent, or whose status is neither
`pending` nor `running`, leaves the record unchanged and answers HTTP 400;
cancelling a `pending` or `running` job answers HTTP 200 with the job now
`cancelled`. -/
theorem C9_cancel_endpoint (j : Option Job) :
    (j = none → cancelJobEndpoint j = (400, none)) ∧
    (∀ job, j = some job → job.status ≠ .pending → job.status ≠ .running →
      cancelJobEndpoint j = (400, some job)) ∧
    (∀ job, j = some job → (job.status = .pending ∨ job.status = .running) →
      cancelJobEndpoint j = (200, some { job with status := .cancelled })) := by
  refine ⟨?_, ?_, ?_⟩
  · rintro rfl
    rfl
  · rintro job rfl h1 h2
    simp [cancelJobEndpoint, cancelJobService, h1, h2]
  · rintro job rfl h
    simp [cancelJobEndpoint, cancelJobService, h]

/-- Witness for C9 at concrete inputs: a missing job answers 400, a
completed job answers 400 unchanged, and a pending job is cancelled with
200. -/
theorem C9_cancel_endpoint_witness :
    cancelJobEndpoint none = (400, none) ∧
    cancelJobEndpoint (some cancelledJob) = (400, some cancelledJob) ∧
    cancelJobEndpoint (some pendingJob) =
      (200, some { pendingJob with status := .cancelled }) :=
  ⟨(C9_cancel_endpoint none).1 rfl,
    (C9_cancel_endpoint (some cancelledJob)).2.1 cancelledJob rfl
      (by decide) (by decide),
    (C9_cancel_endpoint (some pendingJob)).2.2 pendingJob rfl (Or.inl rfl)⟩

/-! ## Claim C10 — authentication precedence and API-key matching -/

/-- Claim C10: when the bearer token resolves to a user, that user is the
request's identity no matter what API-key headers are present (token
precedence); and when the bearer token is invalid, a header whose name
lowercases to `x-api-key` (any capitalization) carrying a non-empty key
accepted by the validator authenticates the request as the API user. -/
theorem C10_auth_precedence (verify : String → Option User)
    (validateKey : String → Bool) (apiUser : User) (tok : String)
    (headers : List (String × String)) (u : User) (n k : String) :
    (verify tok = some u →
      getCurrentUser verify validateKey apiUser (some tok) headers = .ok u) ∧
    (verify tok = none → lowerString n = "x-api-key" → k ≠ "" → validateKey k = true →
      getCurrentUser verify validateKey apiUser (some tok) [(n, k)] = .ok apiUser) := by
  constructor
  · intro h
    simp [getCurrentUser, getCurrentUserFromToken, h, Option.or]
  · intro h hn hk hv
    simp [getCurrentUser, getCurrentUserFromToken, getCurrentUserFromApiKey,
      h, hn, hk, hv, Option.or, List.find?]

/-- Witness for C10 at concrete inputs: with a valid token and a valid key
both presented the token's user wins, and with an invalid token the
differently-capitalized `X-Api-KEY` header still authenticates the API
user. -/
theorem C10_auth_precedence_witness :
    getCurrentUser (fun s => if s = "good" then some { username := "alice", scopes := [] } else none)
        (fun s => s == "k1") { username := "api", scopes := [] } (some "good")
        [("X-Api-KEY", "k1")] = .ok { username := "alice", scopes := [] } ∧
    getCurrentUser (fun s => if s = "good" then some { username := "alice", scopes := [] } else none)
        (fun s => s == "k1") { username := "api", scopes := [] } (some "bad")
        [("X-Api-KEY", "k1")] = .ok { username := "api", scopes := [] } :=
  ⟨(C10_auth_precedence
      (fun s => if s = "good" then some { username := "alice", scopes := [] } else none)
      (fun s => s == "k1") { username := "api", scopes := [] } "good"
      [("X-Api-KEY", "k1")] { username := "alice", scopes := [] }
      "X-Api-KEY" "k1").1 (by simp),
    (C10_auth_precedence
      (fun s => if s = "good" then some { username := "alice", scopes := [] } else none)
      (fun s => s == "k1") { username := "api", scopes := [] } "bad"
      [] { username := "alice", scopes := [] }
      "X-Api-KEY" "k1").2 (by simp) (by decide) (by decide) (by decide)⟩

/-! ## Claim C8 — dataset parse phase precedes evaluation -/

/-- Claim C8: the dataset runner runs a parse phase first: every progress
update written before the first Evaluator call lies in the 0-10 band of the
fixed 0-100 total, and on parse success the updates before that call are
exactly `(0,100)` then `(10,100)` — reaching exactly 10 — followed by a
single Evaluator call; on a parse error the job transitions directly to
`failed` carrying the parser's message, with no Evaluator call at all. -/
theorem C8_dataset_parse_phase (req : DatasetEvaluationRequest) (dmc : Nat)
    (ev : BulkEvaluator) :
    (∀ tcs : List TestCase,
      progUpdates ((runAsyncDatasetEvaluation (.ok tcs) ev req dmc).takeWhile
          fun op => ! isEvalCall op) = [(0, 100), (10, 100)] ∧
      (runAsyncDatasetEvaluation (.ok tcs) ev req dmc).countP isEvalCall = 1) ∧
    (∀ m : String,
      runAsyncDatasetEvaluation (.error m) ev req dmc =
        [StoreOp.setStatus .running,
          StoreOp.setProgress 0 100 "Processing dataset file...", StoreOp.fail m] ∧
      (applyOps pendingJob (runAsyncDatasetEvaluation (.error m) ev req dmc)).status
          = .failed ∧
      (applyOps pendingJob (runAsyncDatasetEvaluation (.error m) ev req dmc)).error
          = some m ∧
      (runAsyncDatasetEvaluation (.error m) ev req dmc).countP isEvalCall = 0) := by
  constructor
  · intro tcs
    constructor
    · rfl
    · cases h : ev tcs req.metrics (orDefault req.maxConcurrent dmc) <;>
        simp [runAsyncDatasetEvaluation, h, isEvalCall, List.countP_cons]
  · intro m
    refine ⟨rfl, rfl, rfl, rfl⟩

/-! ## Lemmas about the bulk chunk loop -/

/-- The progress updates the chunk loop writes are one per chunk up to (and
excluding) the first chunk on which the evaluator raises: for chunk start
`i` the pair `(min (i+b) N, N)`. -/
theorem bulkLoop_progUpdates (ev : BulkEvaluator) (tcs : List TestCase)
    (mets : List String) (b : Nat) :
    ∀ (l : List Nat) (acc : List EvalResult),
      progUpdates (bulkLoop ev tcs mets b l acc)
        = (l.takeWhile fun i => exOk (ev ((tcs.drop i).take b) mets b)).map
            fun i => (min (i + b) tcs.length, tcs.length) := by
  intro l
  induction l with
  | nil => intro acc; rfl
  | cons i rest ih =>
    intro acc
    cases h : ev ((tcs.drop i).take b) mets b with
    | error e =>
      simp [bulkLoop, progUpdates, h, List.takeWhile_cons, exOk]
    | ok out =>
      simp only [bulkLoop, progUpdates, List.filterMap_cons, h,
        List.takeWhile_cons, exOk, List.map_cons]
      exact congrArg _ (ih (acc ++ out.1))

/-- When the evaluator succeeds on every chunk, the loop calls the
evaluator once per chunk and completes exactly once, with the `complete`
as its final operation. -/
theorem bulkLoop_ok_counts (ev : BulkEvaluator) (tcs : List TestCase)
    (mets : List String) (b : Nat) :
    ∀ (l : List Nat) (acc : List EvalResult),
      (∀ i ∈ l, ∃ r, ev ((tcs.drop i).take b) mets b = .ok r) →
      (bulkLoop ev tcs mets b l acc).countP isEvalCall = l.length ∧
      (bulkLoop ev tcs mets b l acc).countP isCompleteOp = 1 := by
  intro l
  induction l with
  | nil => intro acc _; exact ⟨rfl, rfl⟩
  | cons i rest ih =>
    intro acc h
    obtain ⟨r, hr⟩ := h i (List.mem_cons_self i rest)
    have hrest := ih (acc ++ r.1) fun x hx => h x (List.mem_cons_of_mem _ hx)
    simp [bulkLoop, hr, List.countP_cons, isEvalCall, isCompleteOp, hrest.1, hrest.2]

/-- When the evaluator succeeds on the chunks `l1` and raises with message
`m` on the chunk starting at `k`, the loop over `l1 ++ k :: l2` calls the
evaluator exactly `l1.length + 1` times (nothing past the failing chunk),
never completes, ends with `fail m`, and drives any running Job to
`failed` with that message while leaving its results and summary fields
untouched. -/
theorem bulkLoop_error (ev : BulkEvaluator) (tcs : List TestCase)
    (mets : List String) (b k : Nat) (l2 : List Nat) (m : String)
    (herr : ev ((tcs.drop k).take b) mets b = .error m) :
    ∀ (l1 : List Nat) (acc : List EvalResult) (j : Job),
      (∀ i ∈ l1, ∃ r, ev ((tcs.drop i).take b) mets b = .ok r) →
      j.status = .running →
      (bulkLoop ev tcs mets b (l1 ++ k :: l2) acc).getLast? = some (StoreOp.fail m) ∧
      (bulkLoop ev tcs mets b (l1 ++ k :: l2) acc).countP isEvalCall = l1.length + 1 ∧
      (bulkLoop ev tcs mets b (l1 ++ k :: l2) acc).countP isCompleteOp = 0 ∧
      (applyOps j (bulkLoop ev tcs mets b (l1 ++ k :: l2) acc)).status = .failed ∧
      (applyOps j (bulkLoop ev tcs mets b (l1 ++ k :: l2) acc)).error = some m ∧
      (applyOps j (bulkLoop ev tcs mets b (l1 ++ k :: l2) acc)).results = j.results ∧
      (applyOps j (bulkLoop ev tcs mets b (l1 ++ k :: l2) acc)).summary = j.summary := by
  intro l1
  induction l1 with
  | nil =>
    intro acc j _ hrun
    have hterm : j.status.isTerminal = false := by rw [hrun]; rfl
    refine ⟨?_, ?_, ?_, ?_, ?_, ?_, ?_⟩ <;>
      simp [bulkLoop, herr, List.countP_cons, isEvalCall, isCompleteOp,
        applyOps, applyOp, failJob, hterm]
  | cons i rest ih =>
    intro acc j h hrun
    obtain ⟨r, hr⟩ := h i (List.mem_cons_self i rest)
    have hterm : j.status.isTerminal = false := by rw [hrun]; rfl
    have hrest := ih (acc ++ r.1)
      (updateJobProgress j (min (i + b) tcs.length) tcs.length
        ("Processed " ++ toString (min (i + b) tcs.length) ++ "/" ++
          toString tcs.length ++ " test cases"))
      (fun x hx => h x (List.mem_cons_of_mem _ hx))
      (by simp [updateJobProgress, hterm, hrun, JobStatus.isTerminal])
    have hshape : bulkLoop ev tcs mets b ((i :: rest) ++ k :: l2) acc
        = StoreOp.evalCall ((tcs.drop i).take b) ::
          StoreOp.setProgress (min (i + b) tcs.length) tcs.length
            ("Processed " ++ toString (min (i + b) tcs.length) ++ "/" ++
              toString tcs.length ++ " test cases") ::
          bulkLoop ev tcs mets b (rest ++ k :: l2) (acc ++ r.1) := by
      simp [bulkLoop, hr]
    rw [hshape]
    have hne : bulkLoop ev tcs mets b (rest ++ k :: l2) (acc ++ r.1) ≠ [] := by
      intro he
      rw [he] at hrest
      simp at hrest
    refine ⟨?_, ?_, ?_, ?_, ?_, ?_, ?_⟩
    · cases hcons : bulkLoop ev tcs mets b (rest ++ k :: l2) (acc ++ r.1) with
      | nil => exact absurd hcons hne
      | cons x xs =>
        rw [List.getLast?_cons_cons, List.getLast?_cons_cons, ← hcons]
        exact hrest.1
    · simp [List.countP_cons, isEvalCall, hrest.2.1]
    · simp [List.countP_cons, isCompleteOp, hrest.2.2.1]
    · rw [applyOps_cons, applyOps_cons]
      simpa [applyOp, updateJobProgress, hterm] using hrest.2.2.2.1
    · rw [applyOps_cons, applyOps_cons]
      simpa [applyOp, updateJobProgress, hterm] using hrest.2.2.2.2.1
    · rw [applyOps_cons, applyOps_cons]
      have := hrest.2.2.2.2.2.1
      simp only [applyOp] at *
      rw [this]
      simp [updateJobProgress, hterm]
    · rw [applyOps_cons, applyOps_cons]
      have := hrest.2.2.2.2.2.2
      simp only [applyOp] at *
      rw [this]
      simp [updateJobProgress, hterm]

/-! ## Arithmetic of chunk starts -/

/-- The number of chunks equals the ceiling of `n / b`. -/
theorem chunkStarts_length (n b : Nat) :
    (chunkStarts n b).length = (n + b - 1) / b := by
  simp [chunkStarts]

/-- The `k`-th chunk start is `k * b`. -/
theorem chunkStarts_get (n b k : Nat) (hk : k < (chunkStarts n b).length) :
    (chunkStarts n b).get ⟨k, hk⟩ = k * b := by
  simp [chunkStarts]

/-- Every chunk start lies strictly below `n` (for a positive step). -/
theorem chunkStarts_mul_lt (n b k : Nat) (hb : 1 ≤ b)
    (hk : k < (n + b - 1) / b) : k * b < n := by
  have h1 : (k + 1) * b ≤ n + b - 1 :=
    (Nat.le_div_iff_mul_le hb).mp hk
  rw [add_mul, one_mul] at h1
  generalize k * b = x at h1 ⊢
  omega

/-- `(ceil of n / b) * b` covers `n` (for a positive step). -/
theorem ceil_mul_ge (n b : Nat) (hb : 1 ≤ b) : n ≤ ((n + b - 1) / b) * b := by
  have h1 := Nat.div_add_mod (n + b - 1) b
  have h2 : (n + b - 1) % b < b := Nat.mod_lt _ (by omega)
  rw [Nat.mul_comm] at h1
  generalize ((n + b - 1) / b) * b = x at h1 ⊢
  generalize (n + b - 1) % b = r at h1 h2
  omega

/-- With at least one test case there is at least one chunk. -/
theorem ceil_pos (n b : Nat) (hb : 1 ≤ b) (hn : 1 ≤ n) :
    1 ≤ (n + b - 1) / b :=
  (Nat.le_div_iff_mul_le hb).mpr (by omega)

/-! ## Claim C4 — an evaluator error during a chunk fails the job -/

/-- Claim C4: when the evaluator succeeds on the chunks `l1` and raises
with message `m` on the chunk starting at `k`, the bulk runner calls
`fail m` immediately (it is the trace's final operation), makes no further
evaluator calls (exactly `l1.length + 1` in total) and never calls
`complete`; the job ends `failed` with error `m` and with no results or
summary attached — results of the chunks before the failing one are
discarded.  The trace is total, so no error escapes the background task. -/
theorem C4_chunk_error_fails_job (ev : BulkEvaluator) (req : BulkEvaluationRequest)
    (m : String) (l1 l2 : List Nat) (k b : Nat)
    (hb : batchSize req.maxConcurrent = b)
    (hsplit : chunkStarts req.testCases.length b = l1 ++ k :: l2)
    (hok : ∀ i ∈ l1, ∃ r, ev ((req.testCases.drop i).take b) req.metrics b = .ok r)
    (herr : ev ((req.testCases.drop k).take b) req.metrics b = .error m) :
    (runAsyncBulkEvaluation ev req).getLast? = some (StoreOp.fail m) ∧
    (runAsyncBulkEvaluation ev req).countP isEvalCall = l1.length + 1 ∧
    (runAsyncBulkEvaluation ev req).countP isCompleteOp = 0 ∧
    (applyOps pendingJob (runAsyncBulkEvaluation ev req)).status = .failed ∧
    (applyOps pendingJob (runAsyncBulkEvaluation ev req)).error = some m ∧
    (applyOps pendingJob (runAsyncBulkEvaluation ev req)).results = none ∧
    (applyOps pendingJob (runAsyncBulkEvaluation ev req)).summary = none := by
  subst hb
  have hshape : runAsyncBulkEvaluation ev req
      = StoreOp.setStatus .running ::
        StoreOp.setProgress 0 req.testCases.length "Starting bulk evaluation..." ::
        bulkLoop ev req.testCases req.metrics (batchSize req.maxConcurrent)
          (l1 ++ k :: l2) [] := by
    simp only [runAsyncBulkEvaluation]
    rw [hsplit]
  have key := bulkLoop_error ev req.testCases req.metrics
    (batchSize req.maxConcurrent) k l2 m herr l1 []
    { status := .running
      progress := { completed := 0, total := req.testCases.length
                    message := "Starting bulk evaluation..." }
      results := none
      summary := none
      error := none }
    hok rfl
  have hne : bulkLoop ev req.testCases req.metrics (batchSize req.maxConcurrent)
      (l1 ++ k :: l2) [] ≠ [] := by
    intro he
    rw [he] at key
    simp at key
  have hj2 : applyOp (applyOp pendingJob (StoreOp.setStatus .running))
      (StoreOp.setProgress 0 req.testCases.length "Starting bulk evaluation...")
      = { status := .running
          progress := { completed := 0, total := req.testCases.length
                        message := "Starting bulk evaluation..." }
          results := none
          summary := none
          error := none } := rfl
  refine ⟨?_, ?_, ?_, ?_, ?_, ?_, ?_⟩
  · rw [hshape, List.getLast?_cons_cons]
    cases hcons : bulkLoop ev req.testCases req.metrics (batchSize req.maxConcurrent)
        (l1 ++ k :: l2) [] with
    | nil => exact absurd hcons hne
    | cons x xs =>
      rw [List.getLast?_cons_cons, ← hcons]
      exact key.1
  · rw [hshape]
    simp [List.countP_cons, isEvalCall, key.2.1]
  · rw [hshape]
    simp [List.countP_cons, isCompleteOp, key.2.2.1]
  · rw [hshape, applyOps_cons, applyOps_cons, hj2]
    exact key.2.2.2.1
  · rw [hshape, applyOps_cons, applyOps_cons, hj2]
    exact key.2.2.2.2.1
  · rw [hshape, applyOps_cons, applyOps_cons, hj2]
    exact key.2.2.2.2.2.1
  · rw [hshape, applyOps_cons, applyOps_cons, hj2]
    exact key.2.2.2.2.2.2

/-- Witness for C4 at concrete inputs: three test cases, batch size 1, the
evaluator raising `boom` on the second of the three chunks: the trace ends
in `fail "boom"` after exactly two evaluator calls and no `complete`, and
the job finishes `failed` with error `boom` and neither results nor
summary. -/
theorem C4_chunk_error_fails_job_witness :
    (runAsyncBulkEvaluation evErr2 req3).getLast? = some (StoreOp.fail "boom") ∧
    (runAsyncBulkEvaluation evErr2 req3).countP isEvalCall = 2 ∧
    (runAsyncBulkEvaluation evErr2 req3).countP isCompleteOp = 0 ∧
    (applyOps pendingJob (runAsyncBulkEvaluation evErr2 req3)).status = .failed ∧
    (applyOps pendingJob (runAsyncBulkEvaluation evErr2 req3)).error = some "boom" ∧
    (applyOps pendingJob (runAsyncBulkEvaluation evErr2 req3)).results = none ∧
    (applyOps pendingJob (runAsyncBulkEvaluation evErr2 req3)).summary = none :=
  C4_chunk_error_fails_job evErr2 req3 "boom" [0] [2] 1 1 (by decide) (by decide)
    (by
      intro i hi
      simp only [List.mem_singleton] at hi
      subst hi
      exact ⟨_, rfl⟩)
    rfl

/-! ## Claim C1 — cancellation checking in the bulk runner -/

/-- Claim C1 is false of the code: `_run_async_bulk_evaluation` receives
only the job id and contains no read of the Job's status anywhere in its
chunk loop (evaluation.py lines 205-241), so its trace of store and
evaluator operations cannot depend on the store.  Concretely, for a job
that is already `cancelled` before the first chunk (two test cases, batch
size 1), the claim asserts the runner processes no chunk and never invokes
`complete`; instead it evaluates both chunks and invokes `complete` once. -/
theorem C1_claim_counterexample :
    cancelledJob.status = JobStatus.cancelled ∧
    (runAsyncBulkEvaluation evOk req2).countP isEvalCall = 2 ∧
    (runAsyncBulkEvaluation evOk req2).countP isCompleteOp = 1 ∧
    ¬ ((runAsyncBulkEvaluation evOk req2).countP isEvalCall = 0 ∧
      (runAsyncBulkEvaluation evOk req2).countP isCompleteOp = 0) := by
  refine ⟨rfl, ?_, ?_, ?_⟩ <;> decide

/-- Claim C1, amended: the bulk runner never re-reads the Job's status —
on a job already `cancelled` it still processes every chunk and still
invokes `complete` (when the evaluator raises nowhere); the cancelled
job survives unchanged only because the JobStore's already-terminal guard
suppresses every one of the runner's writes. -/
theorem C1_no_cancellation_check (ev : BulkEvaluator) (req : BulkEvaluationRequest)
    (j : Job) (hc : j.status = .cancelled) :
    applyOps j (runAsyncBulkEvaluation ev req) = j ∧
    ((∀ i ∈ chunkStarts req.testCases.length (batchSize req.maxConcurrent),
        ∃ r, ev ((req.testCases.drop i).take (batchSize req.maxConcurrent))
          req.metrics (batchSize req.maxConcurrent) = .ok r) →
      (runAsyncBulkEvaluation ev req).countP isEvalCall
        = (chunkStarts req.testCases.length (batchSize req.maxConcurrent)).length ∧
      (runAsyncBulkEvaluation ev req).countP isCompleteOp = 1) := by
  constructor
  · exact applyOps_terminal (by rw [hc]; rfl) _
  · intro h
    have key := bulkLoop_ok_counts ev req.testCases req.metrics
      (batchSize req.maxConcurrent)
      (chunkStarts req.testCases.length (batchSize req.maxConcurrent)) [] h
    constructor
    · simp only [runAsyncBulkEvaluation, List.countP_cons]
      simp [isEvalCall, key.1]
    · simp only [runAsyncBulkEvaluation, List.countP_cons]
      simp [isCompleteOp, key.2]

/-- Witness for the amended C1 at concrete inputs: a cancelled job with two
test cases and batch size 1 is left exactly as it was, although the runner
evaluated both chunks and invoked `complete`. -/
theorem C1_no_cancellation_check_witness :
    applyOps cancelledJob (runAsyncBulkEvaluation evOk req2) = cancelledJob ∧
    (runAsyncBulkEvaluation evOk req2).countP isEvalCall
      = (chunkStarts req2.testCases.length (batchSize req2.maxConcurrent)).length ∧
    (runAsyncBulkEvaluation evOk req2).countP isCompleteOp = 1 :=
  have h := C1_no_cancellation_check evOk req2 cancelledJob rfl
  ⟨h.1, h.2 fun _ _ => ⟨_, rfl⟩⟩

/-! ## Claim C2 — undetectable dataset format and Job creation -/

/-- Claim C2 is false of the code: in `evaluate_dataset` the Job is created
(line 149) before the file is ever parsed, and the format check of
`_parse_dataset_file` runs inside the background task.  Concretely, a small
upload named `data.txt` with format `auto` has an undetectable format, yet
the endpoint answers 200 and a Job for the request appears — the
background run then marks it `failed`. -/
theorem C2_claim_counterexample :
    detectFormat "auto" "data.txt"
      = Except.error "Could not determine file format. Please specify file_format." ∧
    (datasetRequestRun 1000000 5 txtUpload datasetReqAuto decodeStub decodeStub evOk).1
      = 200 ∧
    ((datasetRequestRun 1000000 5 txtUpload datasetReqAuto decodeStub decodeStub
        evOk).2.map fun j => j.status) = some JobStatus.failed ∧
    ¬ ((datasetRequestRun 1000000 5 txtUpload datasetReqAuto decodeStub decodeStub
        evOk).2 = none) := by
  refine ⟨rfl, rfl, rfl, by decide⟩

/-- Claim C2, amended: an upload within the size limit always creates a
Job, whatever its format; when the format is unsupported or undetectable
(so parsing raises with message `m`), the created Job is marked `failed`
with error `m` by the background task, with no results or summary — it is
not rejected before Job creation. -/
theorem C2_undetectable_format_job_fails (maxFileSize dmc : Nat)
    (u : DatasetUpload) (req : DatasetEvaluationRequest)
    (decodeCsv decodeJson : Except String (List TestCase)) (ev : BulkEvaluator)
    (m : String) (hsize : u.size ≤ maxFileSize)
    (hparse : parseDatasetFile req.fileFormat u.filename decodeCsv decodeJson
      = .error m) :
    datasetRequestRun maxFileSize dmc u req decodeCsv decodeJson ev
      = (200, some
          { status := .failed
            progress := { completed := 0, total := 100
                          message := "Processing dataset file..." }
            results := none
            summary := none
            error := some m }) := by
  rw [datasetRequestRun, if_neg (by omega), hparse]
  rfl

/-- Witness for the amended C2 at concrete inputs: the `data.txt` upload
with format `auto` passes the size check, parsing raises, and the final
job is `failed` with the parser's message. -/
theorem C2_undetectable_format_job_fails_witness :
    txtUpload.size ≤ 1000000 ∧
    datasetRequestRun 1000000 5 txtUpload datasetReqAuto decodeStub decodeStub evOk
      = (200, some
          { status := .failed
            progress := { completed := 0, total := 100
                          message := "Processing dataset file..." }
            results := none
            summary := none
            error := some "Could not determine file format. Please specify file_format." }) :=
  ⟨by decide,
    C2_undetectable_format_job_fails 1000000 5 txtUpload datasetReqAuto
      decodeStub decodeStub evOk
      "Could not determine file format. Please specify file_format."
      (by decide) rfl⟩

/-! ## Claim C3 — shape of the bulk progress updates -/

/-- Claim C3: over `N ≥ 1` test cases with effective batch size `B`, when
the evaluator succeeds on every chunk the runner issues exactly
`ceil(N/B) = (N+B-1)/B` post-chunk progress updates; their `completed`
values are strictly increasing, the `k`-th being `min (k*B + B) N` — so
each update advances by exactly the size of its chunk, the last chunk
possibly smaller — and the final update reports `completed = N`. -/
theorem C3_bulk_progress_updates (ev : BulkEvaluator) (req : BulkEvaluationRequest)
    (N B : Nat) (hN : req.testCases.length = N) (hB : batchSize req.maxConcurrent = B)
    (h1 : 1 ≤ N)
    (hok : ∀ i ∈ chunkStarts N B,
      ∃ r, ev ((req.testCases.drop i).take B) req.metrics B = .ok r) :
    (((progUpdates (runAsyncBulkEvaluation ev req)).drop 1).length = (N + B - 1) / B) ∧
    ((((progUpdates (runAsyncBulkEvaluation ev req)).drop 1).map Prod.fst).Pairwise
      (· < ·)) ∧
    (∀ k, (hk : k < ((progUpdates (runAsyncBulkEvaluation ev req)).drop 1).length) →
      (((progUpdates (runAsyncBulkEvaluation ev req)).drop 1).get ⟨k, hk⟩).1
        = min (k * B + B) N) ∧
    (∀ k, (hk : k + 1 < ((progUpdates (runAsyncBulkEvaluation ev req)).drop 1).length) →
      (((progUpdates (runAsyncBulkEvaluation ev req)).drop 1).get ⟨k + 1, hk⟩).1
        = (((progUpdates (runAsyncBulkEvaluation ev req)).drop 1).get
            ⟨k, Nat.lt_of_succ_lt hk⟩).1 + min B (N - (k + 1) * B)) ∧
    (((progUpdates (runAsyncBulkEvaluation ev req)).drop 1).getLast?
      = some (N, N)) := by
  subst hN
  subst hB
  have hb : 1 ≤ batchSize req.maxConcurrent := batchSize_pos _
  have hupd : (progUpdates (runAsyncBulkEvaluation ev req)).drop 1
      = (chunkStarts req.testCases.length (batchSize req.maxConcurrent)).map
          fun i => (min (i + batchSize req.maxConcurrent) req.testCases.length,
            req.testCases.length) := by
    have h2 : progUpdates (runAsyncBulkEvaluation ev req)
        = (0, req.testCases.length) ::
          progUpdates (bulkLoop ev req.testCases req.metrics
            (batchSize req.maxConcurrent)
            (chunkStarts req.testCases.length (batchSize req.maxConcurrent)) []) := rfl
    rw [h2, List.drop_one, List.tail_cons,
      bulkLoop_progUpdates, List.takeWhile_eq_self_iff.mpr]
    intro i hi
    obtain ⟨r, hr⟩ := hok i hi
    simp [exOk, hr]
  rw [hupd]
  refine ⟨?_, ?_, ?_, ?_, ?_⟩
  · simp [chunkStarts]
  · rw [List.map_map, List.pairwise_iff_getElem]
    intro i j hi hj hij
    simp only [chunkStarts, List.length_map, List.length_range] at hi hj
    simp only [chunkStarts, List.getElem_map, List.getElem_range, Function.comp]
    have hjn : j * batchSize req.maxConcurrent < req.testCases.length :=
      chunkStarts_mul_lt _ _ j hb hj
    have hij2 : (i + 1) * batchSize req.maxConcurrent
        ≤ j * batchSize req.maxConcurrent :=
      Nat.mul_le_mul_right _ (by omega)
    rw [add_mul, one_mul] at hij2
    generalize i * batchSize req.maxConcurrent = x at hij2 ⊢
    generalize j * batchSize req.maxConcurrent = y at hij2 hjn ⊢
    omega
  · intro k hk
    simp only [chunkStarts, List.length_map, List.length_range] at hk
    simp [chunkStarts, List.getElem_map, List.getElem_range]
  · intro k hk
    simp only [chunkStarts, List.length_map, List.length_range] at hk
    simp only [chunkStarts, List.get_eq_getElem, List.getElem_map, List.getElem_range]
    have hkn : (k + 1) * batchSize req.maxConcurrent < req.testCases.length :=
      chunkStarts_mul_lt _ _ (k + 1) hb hk
    have hkk : k * batchSize req.maxConcurrent + batchSize req.maxConcurrent
        = (k + 1) * batchSize req.maxConcurrent := by
      rw [add_mul, one_mul]
    generalize hz : (k + 1) * batchSize req.maxConcurrent = z at hkn hkk ⊢
    generalize k * batchSize req.maxConcurrent = x at hkk ⊢
    omega
  · have hq : 1 ≤ (req.testCases.length + batchSize req.maxConcurrent - 1) /
        batchSize req.maxConcurrent := ceil_pos _ _ hb h1
    rw [List.getLast?_eq_getElem?]
    have hlen : ((chunkStarts req.testCases.length (batchSize req.maxConcurrent)).map
        fun i => (min (i + batchSize req.maxConcurrent) req.testCases.length,
          req.testCases.length)).length
        = (req.testCases.length + batchSize req.maxConcurrent - 1) /
            batchSize req.maxConcurrent := by
      simp [chunkStarts]
    rw [hlen]
    have hlt : (req.testCases.length + batchSize req.maxConcurrent - 1) /
        batchSize req.maxConcurrent - 1
        < (req.testCases.length + batchSize req.maxConcurrent - 1) /
            batchSize req.maxConcurrent := by omega
    rw [List.getElem?_eq_getElem (by simpa [chunkStarts] using hlt)]
    simp only [chunkStarts, List.getElem_map, List.getElem_range]
    have hmul : ((req.testCases.length + batchSize req.maxConcurrent - 1) /
          batchSize req.maxConcurrent - 1) * batchSize req.maxConcurrent +
          batchSize req.maxConcurrent
        = ((req.testCases.length + batchSize req.maxConcurrent - 1) /
            batchSize req.maxConcurrent) * batchSize req.maxConcurrent := by
      generalize hq2 : (req.testCases.length + batchSize req.maxConcurrent - 1) /
        batchSize req.maxConcurrent = q at hq ⊢
      cases q with
      | zero => omega
      | succ p => simp [Nat.succ_sub_one, Nat.succ_mul]
    rw [hmul, Nat.min_eq_right (ceil_mul_ge _ _ hb)]

/-- Witness for C3 at concrete inputs: 25 test cases with requested
concurrency 10 give batch size 10 and exactly `(25+10-1)/10 = 3` post-chunk
updates, strictly increasing and ending at 25. -/
theorem C3_bulk_progress_updates_witness :
    1 ≤ 25 ∧
    ((((progUpdates (runAsyncBulkEvaluation evOk req25)).drop 1).length
        = (25 + 10 - 1) / 10) ∧
      ((((progUpdates (runAsyncBulkEvaluation evOk req25)).drop 1).map Prod.fst).Pairwise
        (· < ·)) ∧
      (∀ k, (hk : k < ((progUpdates (runAsyncBulkEvaluation evOk req25)).drop 1).length) →
        (((progUpdates (runAsyncBulkEvaluation evOk req25)).drop 1).get ⟨k, hk⟩).1
          = min (k * 10 + 10) 25) ∧
      (∀ k, (hk : k + 1 <
          ((progUpdates (runAsyncBulkEvaluation evOk req25)).drop 1).length) →
        (((progUpdates (runAsyncBulkEvaluation evOk req25)).drop 1).get ⟨k + 1, hk⟩).1
          = (((progUpdates (runAsyncBulkEvaluation evOk req25)).drop 1).get
              ⟨k, Nat.lt_of_succ_lt hk⟩).1 + min 10 (25 - (k + 1) * 10)) ∧
      (((progUpdates (runAsyncBulkEvaluation evOk req25)).drop 1).getLast?
        = some (25, 25))) :=
  ⟨by decide,
    C3_bulk_progress_updates evOk req25 25 10 rfl rfl (by decide)
      fun _ _ => ⟨_, rfl⟩⟩

/-! ## Claim C5 — progress invariants of all three runners -/

/-- Claim C5: for every runner (single, bulk, dataset), whatever the
evaluator and parser do, the sequence of progress updates written has
non-decreasing `completed`, `completed` never exceeding `total`, and a
`total` that never changes once set: 1 for single jobs, `N` (the number of
test cases) for bulk jobs, 100 for dataset jobs. -/
theorem C5_progress_invariants :
    (∀ (ev : SingleEvaluator) (req : EvaluationRequest),
      progressOK 1 (progUpdates (runAsyncSingleEvaluation ev req))) ∧
    (∀ (ev : BulkEvaluator) (req : BulkEvaluationRequest),
      progressOK req.testCases.length (progUpdates (runAsyncBulkEvaluation ev req))) ∧
    (∀ (parsed : Except String (List TestCase)) (ev : BulkEvaluator)
      (req : DatasetEvaluationRequest) (dmc : Nat),
      progressOK 100 (progUpdates (runAsyncDatasetEvaluation parsed ev req dmc))) := by
  refine ⟨?_, ?_, ?_⟩
  · intro ev req
    cases h : ev req.testCase req.metrics with
    | error e => simp [progressOK, runAsyncSingleEvaluation, h, progUpdates]
    | ok r => simp [progressOK, runAsyncSingleEvaluation, h, progUpdates]
  · intro ev req
    have hb : 1 ≤ batchSize req.maxConcurrent := batchSize_pos _
    have h2 : progUpdates (runAsyncBulkEvaluation ev req)
        = (0, req.testCases.length) ::
          progUpdates (bulkLoop ev req.testCases req.metrics
            (batchSize req.maxConcurrent)
            (chunkStarts req.testCases.length (batchSize req.maxConcurrent)) []) := rfl
    rw [h2, bulkLoop_progUpdates]
    constructor
    · rw [List.pairwise_cons]
      constructor
      · intro q _
        exact Nat.zero_le _
      · have p1 : ((chunkStarts req.testCases.length
            (batchSize req.maxConcurrent)).takeWhile fun i =>
              exOk (ev ((req.testCases.drop i).take (batchSize req.maxConcurrent))
                req.metrics (batchSize req.maxConcurrent))).Pairwise (· < ·) :=
          List.Pairwise.sublist (List.takeWhile_sublist _)
            (List.Pairwise.map _ (fun a b hab =>
                (Nat.mul_lt_mul_right (by omega : 0 < batchSize req.maxConcurrent)).mpr hab)
              (List.pairwise_lt_range _))
        exact List.Pairwise.map _
          (fun a b hab => min_le_min (by omega) le_rfl) p1
    · intro p hp
      rcases List.mem_cons.mp hp with h | h
      · subst h
        exact ⟨Nat.zero_le _, rfl⟩
      · obtain ⟨i, _, rfl⟩ := List.mem_map.mp h
        exact ⟨Nat.min_le_right _ _, rfl⟩
  · intro parsed ev req dmc
    cases parsed with
    | error e => simp [progressOK, runAsyncDatasetEvaluation, progUpdates]
    | ok tcs =>
      cases h : ev tcs req.metrics (orDefault req.maxConcurrent dmc) with
      | error e => simp [progressOK, runAsyncDatasetEvaluation, h, progUpdates]
      | ok out => simp [progressOK, runAsyncDatasetEvaluation, h, progUpdates]
